import Mathlib

/-!
Verification of the sqlmorpher join validator / query builder and migration
pipeline (`sqlmorpher/joins.py`, `sqlmorpher/migration.py`) via a shallow
embedding in Lean.  Python `ValueError` raise sites become constructors of an
explicit error type; the SQLAlchemy engine is abstracted as an execution
capability `String → Except String (Option (List Row))` (an `error` result is
a `SQLAlchemyError`, an `ok none` result is a non-row-returning statement);
database side effects of the migration pipeline are recorded as an explicit
trace of executed extraction queries and performed row inserts.
-/

/-! ## Characters and small string helpers

`isWordChar` embeds the regex class `\w`, `isSpaceChar` the class `\s`
(ASCII range, as exercised by the repository), used by the ON-clause parser
in `joins.py`. -/

def isWordChar (c : Char) : Bool := c.isAlphanum || c = '_'

def isSpaceChar (c : Char) : Bool :=
  c = ' ' || c = '\t' || c = '\n' || c = '\r' || c = '\x0B' || c = '\x0C'

/-- Embeds Python `str.upper()` (ASCII). -/
def strUpper (s : String) : String := (s.data.map Char.toUpper).asString

/-- Embeds Python `str.startswith(p)`. -/
def strStartsWith (s p : String) : Bool := p.data.isPrefixOf s.data

/-- Embeds Python `str.split(".")` on the character list of a string. -/
def splitOnDot : List Char → List (List Char)
  | [] => [[]]
  | c :: rest =>
    if c = '.' then [] :: splitOnDot rest
    else
      match splitOnDot rest with
      | g :: gs => (c :: g) :: gs
      | [] => [[c]]

/-- Embeds Python `", ".join`-style concatenation used when rendering the
column list of a compiled SELECT statement. -/
def joinSep (sep : String) : List String → String
  | [] => ""
  | [s] => s
  | s :: rest => s ++ sep ++ joinSep sep rest

/-! ## The ON-clause parser (`joins.py`, `_parse_on_clause`)

The Python source matches `re.match(r"(\w+)\.(\w+)\s*=\s*(\w+)\.(\w+)", on)`.
`re.match` anchors at the start of the string only; each `\w+` is a maximal
run of word characters (backtracking can never shorten it here because the
character required after each group is never a word character), and trailing
input after the fourth group is ignored.  The embedding below is that exact
deterministic reading of the pattern. -/

def _parse_on_clause (on_clause : String) : Option (String × String × String × String) :=
  let cs := on_clause.data
  let w1 := cs.takeWhile isWordChar
  match cs.dropWhile isWordChar with
  | [] => none
  | d1 :: r2 =>
    if d1 = '.' then
      let w2 := r2.takeWhile isWordChar
      match (r2.dropWhile isWordChar).dropWhile isSpaceChar with
      | [] => none
      | e1 :: r5 =>
        if e1 = '=' then
          let r6 := r5.dropWhile isSpaceChar
          let w3 := r6.takeWhile isWordChar
          match r6.dropWhile isWordChar with
          | [] => none
          | d2 :: r8 =>
            if d2 = '.' then
              let w4 := r8.takeWhile isWordChar
              if w1 ≠ [] ∧ w2 ≠ [] ∧ w3 ≠ [] ∧ w4 ≠ [] then
                some (w1.asString, w2.asString, w3.asString, w4.asString)
              else none
            else none
        else none
    else none

/-! ## Schema model

`NativeType` is the image of the SQLAlchemy column type object as far as
`_get_column_type` inspects it: the four recognized classes plus the fallback
`str(col.type)` rendering for anything else. -/

inductive NativeType where
  | integer : NativeType
  | string : NativeType
  | date : NativeType
  | boolean : NativeType
  | other : String → NativeType
  deriving DecidableEq

/-- A reflected table: name plus ordered column list (name, native type). -/
structure TableSchema where
  name : String
  cols : List (String × NativeType)
  deriving DecidableEq

/-- Ordered-dict lookup (Python `dict.get` / `Table.c.get`). -/
def dlookup {α : Type} (m : List (String × α)) (k : String) : Option α :=
  (m.find? (fun p => p.1 = k)).map (·.2)

/-- Ordered-dict insert (Python `d[k] = v`): overwrites in place, appends new
keys at the end; mirrors insertion-ordered Python dicts. -/
def dinsert {α : Type} (m : List (String × α)) (k : String) (v : α) : List (String × α) :=
  if m.any (fun p => p.1 = k) then m.map (fun p => if p.1 = k then (k, v) else p)
  else m ++ [(k, v)]

/-- `table.c.get(column)` on the embedded schema. -/
def dcolget (table : TableSchema) (column : String) : Option NativeType :=
  dlookup table.cols column

/-- The 4-way semantic tag (plus raw-name fallback) computed by the
`isinstance` chain of `_get_column_type` in `joins.py`. -/
def typeTag : NativeType → String
  | .integer => "int"
  | .string => "str"
  | .date => "date"
  | .boolean => "bool"
  | .other n => n

/-- `joins.py` `_get_column_type`: `None` when the column is absent, else the
semantic type tag. -/
def _get_column_type (table : TableSchema) (column : String) : Option String :=
  match dcolget table column with
  | none => none
  | some ty => some (typeTag ty)

/-! ## Errors

One constructor per distinct Python raise site reachable from the embedded
core (`ValueError`s of `joins.py` / `migration.py`, plus the built-in
`IndexError` / `KeyError` sites in `validate_joins` / `generate_join_query`
and a propagated `SQLAlchemyError`). -/

inductive Err where
  | rootTableMissing : String → Err
  | tableMissing : String → Err
  | missingKeys : Err
  | invalidOnClause : String → Err
  | forwardReference : String → Err
  | columnMissing : String → String → Err
  | typeMismatch : String → String → Option String → String → String → Option String → Err
  | indexError : Err
  | joinValidationFailed : String → Err
  | keyError : String → Err
  | unknownTransform : String → List String → Err
  | sqlError : String → Err
  deriving DecidableEq

/-- All identifier/message strings carried by an error value. -/
def errStrings : Err → List String
  | .rootTableMissing n => [n]
  | .tableMissing n => [n]
  | .missingKeys => []
  | .invalidOnClause s => [s]
  | .forwardReference t => [t]
  | .columnMissing c t => [c, t]
  | .typeMismatch lt lc lty rt rc rty =>
      [lt, lc, rt, rc] ++ lty.toList ++ rty.toList
  | .indexError => []
  | .joinValidationFailed m => [m]
  | .keyError k => [k]
  | .unknownTransform n avail => n :: avail
  | .sqlError m => [m]

/-! ## Rows and the database capability -/

inductive Val where
  | int : Int → Val
  | str : String → Val
  | null : Val
  deriving DecidableEq

/-- A row as a flat field→value mapping (the image of `row_to_dict`). -/
abbrev Row := List (String × Val)

/-- The external database: the reflected schema plus the execution
capability (`Database.execute_query`): an `error` is a raised
`SQLAlchemyError` message, `ok none` a non-row-returning statement,
`ok (some rows)` a result set. -/
structure Database where
  tables : List TableSchema
  exec : String → Except String (Option (List Row))

/-- `joins.py` `_load_table`: reflection of a table by name (only ever called
after an existence check, so the fallback is unreachable). -/
def _load_table (schema : List TableSchema) (table_name : String) : TableSchema :=
  (schema.find? (fun t => t.name = table_name)).getD ⟨table_name, []⟩

/-! ## The join validator (`joins.py`, `validate_joins`) -/

/-- The accumulating SQLAlchemy from-clause: the root table, then one `.join`
per loop iteration (joined table, ON predicate columns, `isouter` flag). -/
inductive FromClause where
  | table : TableSchema → FromClause
  | join : FromClause → TableSchema → String → String → String → String → Bool → FromClause
  deriving DecidableEq

/-- Table names in the from-clause, in join order (root first). -/
def fromTables : FromClause → List String
  | .table t => [t.name]
  | .join acc right _ _ _ _ _ => fromTables acc ++ [right.name]

/-- `isouter` flags of the joins, in join order. -/
def outerFlags : FromClause → List Bool
  | .table _ => []
  | .join acc _ _ _ _ _ isouter => outerFlags acc ++ [isouter]

/-- SQL text of the from-clause, as compiled into the final statement. -/
def fromClauseSQL : FromClause → String
  | .table t => t.name
  | .join acc right lt lc rt rc isouter =>
      fromClauseSQL acc ++ (if isouter then " LEFT OUTER JOIN " else " JOIN ") ++
        right.name ++ " ON " ++ lt ++ "." ++ lc ++ " = " ++ rt ++ "." ++ rc

/-- One join specification, the image of the `join_info` dict: `.get` results
for the keys `"table"`, `"on_clause"` and `"type"`. -/
structure JoinSpec where
  table : Option String
  on_clause : Option String
  type : Option String
  deriving DecidableEq

/-- `joins.py` `_ensure_table_and_load`. -/
def _ensure_table_and_load (table_name : String) (schema : List TableSchema)
    (tables : List String) : Except Err TableSchema :=
  if table_name ∈ tables then .ok (_load_table schema table_name)
  else .error (.tableMissing table_name)

/-- `joins.py` `_parse_on_or_raise`. -/
def _parse_on_or_raise (on_clause : String) :
    Except Err (String × String × String × String) :=
  match _parse_on_clause on_clause with
  | none => .error (.invalidOnClause on_clause)
  | some p => .ok p

/-- `joins.py` `_ensure_referenced_tables`: both predicate tables must be
already introduced or equal to the table being introduced in this step. -/
def _ensure_referenced_tables (added_tables : List String)
    (referenced : String × String) (current_table : String) : Except Err Unit :=
  if referenced.1 ∉ added_tables ∧ referenced.1 ≠ current_table then
    .error (.forwardReference referenced.1)
  else if referenced.2 ∉ added_tables ∧ referenced.2 ≠ current_table then
    .error (.forwardReference referenced.2)
  else .ok ()

/-- `joins.py` `_ensure_columns_exist`. -/
def _ensure_columns_exist (table : TableSchema) (columns : List String) :
    Except Err Unit :=
  match columns with
  | [] => .ok ()
  | col :: rest =>
    if col ∈ table.cols.map (·.1) then _ensure_columns_exist table rest
    else .error (.columnMissing col table.name)

/-- The loop state of `validate_joins`: introduced tables, `table_map`,
and the accumulating from-clause. -/
structure LoopState where
  added_tables : List String
  table_map : List (String × TableSchema)
  from_clause : FromClause
  deriving DecidableEq

/-- One iteration of the `for join_info in join_tables` loop of
`validate_joins` (`joins.py` lines 96–143), in source statement order. -/
def validateStep (schema : List TableSchema) (tables : List String)
    (st : LoopState) (join_info : JoinSpec) : Except Err LoopState :=
  let join_type := strUpper (join_info.type.getD "INNER")
  match join_info.table, join_info.on_clause with
  | some table_name, some on_clause =>
    if table_name = "" ∨ on_clause = "" then .error .missingKeys
    else
      match _ensure_table_and_load table_name schema tables with
      | .error e => .error e
      | .ok _ =>
        match _parse_on_or_raise on_clause with
        | .error e => .error e
        | .ok (left_table_name, left_col_name, right_table_name, right_col_name) =>
          match _ensure_referenced_tables st.added_tables
              (left_table_name, right_table_name) table_name with
          | .error e => .error e
          | .ok _ =>
            match _ensure_table_and_load left_table_name schema tables with
            | .error e => .error e
            | .ok left_table =>
              match _ensure_table_and_load right_table_name schema tables with
              | .error e => .error e
              | .ok right_table =>
                let table_map :=
                  dinsert (dinsert st.table_map left_table_name left_table)
                    right_table_name right_table
                match _ensure_columns_exist left_table [left_col_name] with
                | .error e => .error e
                | .ok _ =>
                  match _ensure_columns_exist right_table [right_col_name] with
                  | .error e => .error e
                  | .ok _ =>
                    let left_type := _get_column_type left_table left_col_name
                    let right_type := _get_column_type right_table right_col_name
                    if left_type ≠ right_type then
                      .error (.typeMismatch left_table_name left_col_name left_type
                        right_table_name right_col_name right_type)
                    else
                      let is_outer := strStartsWith join_type "LEFT"
                      .ok { added_tables := st.added_tables ++ [table_name]
                            table_map := table_map
                            from_clause := .join st.from_clause right_table
                              left_table_name left_col_name
                              right_table_name right_col_name is_outer }
  | _, _ => .error .missingKeys

/-- The whole join loop of `validate_joins`. -/
def validateLoop (schema : List TableSchema) (tables : List String) :
    List JoinSpec → LoopState → Except Err LoopState
  | [], st => .ok st
  | j :: rest, st =>
    match validateStep schema tables st j with
    | .error e => .error e
    | .ok st' => validateLoop schema tables rest st'

/-- The static part of `validate_joins` (`joins.py` lines 83–143): everything
before the live smoke query. -/
def validateJoinsStatic (schema : List TableSchema) (root_table_name : String)
    (join_tables : List JoinSpec) : Except Err LoopState :=
  let tables := schema.map (·.name)
  if root_table_name ∈ tables then
    let root_table := _load_table schema root_table_name
    validateLoop schema tables join_tables
      { added_tables := [root_table_name]
        table_map := [(root_table_name, root_table)]
        from_clause := .table root_table }
  else .error (.rootTableMissing root_table_name)

/-- The compiled smoke statement of `validate_joins` (lines 145–149): the
first column of the root table selected through the assembled from-clause
with `LIMIT 1`; `none` when the root table has no columns (the Python
`list(root_table.c)[0]` would raise `IndexError`). -/
def smokeSql (schema : List TableSchema) (root_table_name : String)
    (from_clause : FromClause) : Option String :=
  match (_load_table schema root_table_name).cols with
  | [] => none
  | (c0, _) :: _ =>
    some ("SELECT " ++ (_load_table schema root_table_name).name ++ "." ++ c0 ++
      " FROM " ++ fromClauseSQL from_clause ++ " LIMIT 1")

/-- `joins.py` `validate_joins`: static checks, then the single live smoke
query, whose execution-layer failure is wrapped as a join-validation error. -/
def validate_joins (db : Database) (root_table_name : String)
    (join_tables : List JoinSpec) :
    Except Err (FromClause × List (String × TableSchema)) :=
  match validateJoinsStatic db.tables root_table_name join_tables with
  | .error e => .error e
  | .ok st =>
    match smokeSql db.tables root_table_name st.from_clause with
    | none => .error .indexError
    | some sql_str =>
      match db.exec sql_str with
      | .error e => .error (.joinValidationFailed ("Join validation failed: " ++ e))
      | .ok _ => .ok (st.from_clause, st.table_map)

/-! ## The query compiler (`joins.py`, `generate_join_query`) -/

/-- `table_col.split(".")[0]` / `[1]` in `generate_join_query`: the first two
dot-separated parts of a select-column key; fewer than two parts is the
Python `IndexError`. -/
def splitRef (table_col : String) : Except Err (String × String) :=
  match splitOnDot table_col.data with
  | t :: c :: _ => .ok (t.asString, c.asString)
  | _ => .error .indexError

/-- The pure rendering of one select-column key, used to state order
preservation: first dot-part, dot, second dot-part, ` AS `, alias. -/
def fragFormula (p : String × String) : String :=
  match splitOnDot p.1.data with
  | t :: c :: _ => t.asString ++ "." ++ c.asString ++ " AS " ++ p.2
  | _ => ""

/-- One labeled output column:
`table_map[table_col.split(".")[0]].c[table_col.split(".")[1]].label(alias)`;
a missing table or column key is the Python `KeyError`. -/
def labelFragment (table_map : List (String × TableSchema))
    (table_col out_alias : String) : Except Err String :=
  match splitRef table_col with
  | .error e => .error e
  | .ok (t, c) =>
    match dlookup table_map t with
    | none => .error (.keyError t)
    | some tbl =>
      match dcolget tbl c with
      | none => .error (.keyError c)
      | some _ => .ok (t ++ "." ++ c ++ " AS " ++ out_alias)

/-- The list comprehension building `columns` in `generate_join_query`,
in `select_columns.items()` order, stopping at the first error. -/
def buildColumns (table_map : List (String × TableSchema)) :
    List (String × String) → Except Err (List String)
  | [] => .ok []
  | p :: rest =>
    match labelFragment table_map p.1 p.2 with
    | .error e => .error e
    | .ok f =>
      match buildColumns table_map rest with
      | .error e => .error e
      | .ok fs => .ok (f :: fs)

/-- `joins.py` `generate_join_query`: validate the joins, then compile a
single SELECT statement whose output column list follows `select_columns`
insertion order (`select_columns` is the `items()` sequence of the Python
dict argument). -/
def generate_join_query (db : Database) (root_table_name : String)
    (join_tables : List JoinSpec) (select_columns : List (String × String)) :
    Except Err String :=
  match validate_joins db root_table_name join_tables with
  | .error e => .error e
  | .ok (from_clause, table_map) =>
    match buildColumns table_map select_columns with
    | .error e => .error e
    | .ok cols =>
      .ok ("SELECT " ++ joinSep ", " cols ++ " FROM " ++ fromClauseSQL from_clause)

/-! ## The migration pipeline (`migration.py`) -/

/-- `migration.py` `TransformFn = Callable[[Database, Mapping], None]`: a
side-effecting writer receiving the target database handle and one row.  In
the embedding a transform's action on the target database is represented by
the list of `(table, row)` inserts it performs there. -/
abbrev TransformFn := Row → List (String × Row)

/-- `migration.py` `row_to_dict`: rows are already flat field→value mappings
in the embedding, so the conversion is the identity. -/
def row_to_dict (row : Row) : Row := row

/-- `migration.py` `_lookup_insert_fn`: empty name means no transform;
an unknown name is fatal, carrying the full available-name list. -/
def _lookup_insert_fn (transform_registry : List (String × TransformFn))
    (insert_fn_name : String) : Except Err (Option TransformFn) :=
  if insert_fn_name = "" then .ok none
  else
    match dlookup transform_registry insert_fn_name with
    | none => .error (.unknownTransform insert_fn_name (transform_registry.map (·.1)))
    | some f => .ok (some f)

/-- `migration.py` `_process_rows`: per row, either hand the row to the
transform (and perform whatever inserts it does, never an additional
pipeline insert), or insert the row into the target table.  The result is
the list of inserts performed on `new_db`. -/
def _process_rows (target_table : String) (rows : List Row)
    (insert_fn : Option TransformFn) : List (String × Row) :=
  rows.flatMap fun row =>
    match insert_fn with
    | some f => f (row_to_dict row)
    | none => [(target_table, row_to_dict row)]

/-- One migration plan entry, the image of `map_entry`: `root_table` is the
mandatory key, the other fields are the `.get` results with their defaults
(`joins` → `[]`, `columns` → `{}`, `insert_function` → `""`). -/
structure MapEntry where
  root_table : String
  joins : List JoinSpec
  columns : List (String × String)
  target_table : Option String
  insert_function : String

/-- The observable side effects of a migration run: extraction queries
executed against the source database and row inserts performed on the
target database, in order. -/
structure MigTrace where
  queries : List String
  inserts : List (String × Row)
  deriving DecidableEq

/-- The `for map_entry in mapping` loop of `migrate`: threads the effect
trace; an error aborts the run immediately, pairing the raised error with
the effects performed so far. -/
def migrateLoop (old_db new_db : Database)
    (transform_registry : List (String × TransformFn)) :
    List MapEntry → MigTrace → Except (Err × MigTrace) (String × MigTrace)
  | [], trace => .ok ("Migration completed successfully", trace)
  | map_entry :: rest, trace =>
    let root_table := map_entry.root_table
    let target_table := map_entry.target_table.getD root_table
    match _lookup_insert_fn transform_registry map_entry.insert_function with
    | .error e => .error (e, trace)
    | .ok insert_fn =>
      match generate_join_query old_db root_table map_entry.joins map_entry.columns with
      | .error e => .error (e, trace)
      | .ok join_query =>
        match old_db.exec join_query with
        | .error msg => .error (.sqlError msg, trace)
        | .ok rowsOpt =>
          let rows := rowsOpt.getD []
          let ins := _process_rows target_table rows insert_fn
          migrateLoop old_db new_db transform_registry rest
            ⟨trace.queries ++ [join_query], trace.inserts ++ ins⟩

/-- `migration.py` `migrate` (registry `None` defaults to the empty dict). -/
def migrate (old_db new_db : Database) (mapping : List MapEntry)
    (transform_registry : Option (List (String × TransformFn))) :
    Except (Err × MigTrace) (String × MigTrace) :=
  migrateLoop old_db new_db (transform_registry.getD []) mapping ⟨[], []⟩

/-! ## Concrete fixtures

Small schemas mirroring the repository's test fixtures (`users`, `profiles`,
`comptes`), used to instantiate the theorems below on closed inputs. -/

def usersT : TableSchema :=
  ⟨"users", [("id", .integer), ("username", .string)]⟩

def profilesT : TableSchema :=
  ⟨"profiles", [("id", .integer), ("user_id", .integer), ("phone", .string)]⟩

/-- A `profiles` variant whose `user_id` column is textual. -/
def profilesStrT : TableSchema :=
  ⟨"profiles", [("id", .integer), ("user_id", .string), ("phone", .string)]⟩

def tableAT : TableSchema := ⟨"A", [("x", .integer), ("y", .integer)]⟩

def tableBT : TableSchema := ⟨"B", [("z", .integer)]⟩

/-- An execution capability on which every statement succeeds without rows. -/
def okExec : String → Except String (Option (List Row)) := fun _ => .ok none

/-- An execution capability on which every statement raises. -/
def failExec : String → Except String (Option (List Row)) :=
  fun _ => .error "no such table: users"

def demoDb : Database := ⟨[usersT, profilesT], okExec⟩

def failDb : Database := ⟨[usersT, profilesT], failExec⟩

def mismatchDb : Database := ⟨[usersT, profilesStrT], okExec⟩

def dbAB : Database := ⟨[tableAT, tableBT], okExec⟩

/-- The single source row of the repository's migration tests. -/
def aliceRow : Row :=
  [("id", .int 1), ("login", .str "alice"), ("telephone", .str "123456")]

/-- The pure row mapper `transform_user_data` of the repository's
`test_migration.py`, viewed through the code's writer calling convention
`insert_fn(new_db, row_dict)`: it only returns a value and performs no
database writes itself, so its effect on the target database is empty. -/
def transform_user_data_writes : TransformFn := fun _ => []

/-- A registry holding one genuine side-effecting writer. -/
def demoRegistry : List (String × TransformFn) :=
  [("existing_function", fun row => [("side_table", row)])]

/-- A plan entry requesting the absent transform `"missing"`. -/
def missingEntry : MapEntry :=
  ⟨"users", [], [("users.id", "id")], some "comptes", "missing"⟩

/-- A well-formed follow-up plan entry (never reached in the runs below). -/
def plainEntry : MapEntry :=
  ⟨"users", [], [("users.id", "id")], some "comptes", ""⟩

/-! ## The specified parser shape

The spec-side characterization of `ident.ident = ident.ident` matching, used
to compare `_parse_on_clause` against the specified language: four nonempty
word-character runs, a dot inside each side, horizontal whitespace around
`=`, and (as the code's unanchored `re.match` forces) an ignored trailing
remainder that cannot start with a word character. -/

def WordRun (s : String) : Prop :=
  s.data ≠ [] ∧ ∀ c ∈ s.data, isWordChar c = true

def SpaceRun (ws : List Char) : Prop := ∀ c ∈ ws, isSpaceChar c = true

def OnShape (s t1 c1 t2 c2 : String) : Prop :=
  ∃ ws1 ws2 rest,
    WordRun t1 ∧ WordRun c1 ∧ WordRun t2 ∧ WordRun c2 ∧
    SpaceRun ws1 ∧ SpaceRun ws2 ∧
    (∀ c, rest.head? = some c → isWordChar c = false) ∧
    s.data = t1.data ++ '.' ::
      (c1.data ++ ws1 ++ '=' :: (ws2 ++ t2.data ++ '.' :: (c2.data ++ rest)))

/-! ## List and character lemmas -/

theorem head?_dropWhile_false (p : Char → Bool) : ∀ (l : List Char) (c : Char),
    (l.dropWhile p).head? = some c → p c = false := by
  intro l
  induction l with
  | nil => intro c h; simp [List.dropWhile] at h
  | cons a t ih =>
    intro c h
    rw [List.dropWhile_cons] at h
    by_cases hp : p a
    · simp only [hp, if_true] at h
      exact ih c h
    · rw [Bool.not_eq_true] at hp
      rw [hp, if_neg (by simp)] at h
      simp only [List.head?_cons, Option.some.injEq] at h
      subst h
      exact hp

theorem takeWhile_append_all {p : Char → Bool} {l2 : List Char} (l1 : List Char)
    (h1 : ∀ c ∈ l1, p c = true) (h2 : ∀ c, l2.head? = some c → p c = false) :
    (l1 ++ l2).takeWhile p = l1 ∧ (l1 ++ l2).dropWhile p = l2 := by
  induction l1 with
  | nil =>
    simp only [List.nil_append]
    cases l2 with
    | nil => exact ⟨rfl, rfl⟩
    | cons b t =>
      have hb : p b = false := h2 b rfl
      exact ⟨by rw [List.takeWhile_cons, hb]; simp, by rw [List.dropWhile_cons]; simp [hb]⟩
  | cons a t ih =>
    have ha : p a = true := h1 a (by simp)
    obtain ⟨ih1, ih2⟩ := ih (fun c hc => h1 c (by simp [hc]))
    constructor
    · rw [List.cons_append, List.takeWhile_cons, ha]
      simp [ih1]
    · rw [List.cons_append, List.dropWhile_cons, ha]
      simp [ih2]

theorem isSpaceChar_not_word {c : Char} (h : isSpaceChar c = true) :
    isWordChar c = false := by
  simp only [isSpaceChar, Bool.or_eq_true, decide_eq_true_eq] at h
  rcases h with ((((h | h) | h) | h) | h) | h <;> subst h <;> decide

theorem isWordChar_not_space {c : Char} (h : isWordChar c = true) :
    isSpaceChar c = false := by
  by_cases hs : isSpaceChar c = true
  · rw [isSpaceChar_not_word hs] at h
    cases h
  · simpa using hs

theorem data_asString (l : List Char) : (l.asString).data = l := rfl

theorem asString_data (s : String) : s.data.asString = s := by
  cases s
  rfl

/-- Soundness half of the parser characterization: a successful parse exposes
the matched decomposition of the input. -/
theorem parse_some_shape {s t1 c1 t2 c2 : String}
    (h : _parse_on_clause s = some (t1, c1, t2, c2)) : OnShape s t1 c1 t2 c2 := by
  simp only [_parse_on_clause] at h
  split at h
  · exact absurd h (by simp)
  · rename_i d1 r2 h1
    split at h
    case isFalse => exact absurd h (by simp)
    case isTrue hd1 =>
      split at h
      · exact absurd h (by simp)
      · rename_i e1 r5 h2
        split at h
        case isFalse => exact absurd h (by simp)
        case isTrue he1 =>
          split at h
          · exact absurd h (by simp)
          · rename_i d2 r8 h3
            split at h
            case isFalse => exact absurd h (by simp)
            case isTrue hd2 =>
              split at h
              case isFalse => exact absurd h (by simp)
              case isTrue hne =>
                obtain ⟨hne1, hne2, hne3, hne4⟩ := hne
                simp only [Option.some.injEq, Prod.mk.injEq] at h
                obtain ⟨ht1, hc1, ht2, hc2⟩ := h
                subst ht1; subst hc1; subst ht2; subst hc2
                subst hd1; subst he1; subst hd2
                refine ⟨(r2.dropWhile isWordChar).takeWhile isSpaceChar,
                  r5.takeWhile isSpaceChar, r8.dropWhile isWordChar,
                  ⟨by simpa [data_asString] using hne1,
                   fun c hc => List.mem_takeWhile_imp (by simpa [data_asString] using hc)⟩,
                  ⟨by simpa [data_asString] using hne2,
                   fun c hc => List.mem_takeWhile_imp (by simpa [data_asString] using hc)⟩,
                  ⟨by simpa [data_asString] using hne3,
                   fun c hc => List.mem_takeWhile_imp (by simpa [data_asString] using hc)⟩,
                  ⟨by simpa [data_asString] using hne4,
                   fun c hc => List.mem_takeWhile_imp (by simpa [data_asString] using hc)⟩,
                  fun c hc => List.mem_takeWhile_imp hc,
                  fun c hc => List.mem_takeWhile_imp hc,
                  head?_dropWhile_false isWordChar r8, ?_⟩
                simp only [data_asString]
                have q8 : r8 = r8.takeWhile isWordChar ++ r8.dropWhile isWordChar :=
                  (List.takeWhile_append_dropWhile _ _).symm
                have q6 : r5.dropWhile isSpaceChar =
                    (r5.dropWhile isSpaceChar).takeWhile isWordChar ++
                      '.' :: (r8.takeWhile isWordChar ++ r8.dropWhile isWordChar) := by
                  conv_lhs =>
                    rw [← List.takeWhile_append_dropWhile isWordChar (r5.dropWhile isSpaceChar)]
                  rw [h3, List.takeWhile_append_dropWhile]
                have q5 : r5 = r5.takeWhile isSpaceChar ++
                    ((r5.dropWhile isSpaceChar).takeWhile isWordChar ++
                      '.' :: (r8.takeWhile isWordChar ++ r8.dropWhile isWordChar)) := by
                  conv_lhs => rw [← List.takeWhile_append_dropWhile isSpaceChar r5]
                  rw [← q6]
                have q3 : r2.dropWhile isWordChar =
                    (r2.dropWhile isWordChar).takeWhile isSpaceChar ++ '=' :: r5 := by
                  conv_lhs =>
                    rw [← List.takeWhile_append_dropWhile isSpaceChar (r2.dropWhile isWordChar)]
                  rw [h2]
                have q2 : r2 = r2.takeWhile isWordChar ++
                    ((r2.dropWhile isWordChar).takeWhile isSpaceChar ++ '=' :: r5) := by
                  conv_lhs => rw [← List.takeWhile_append_dropWhile isWordChar r2]
                  rw [← q3]
                have q1 : s.data = s.data.takeWhile isWordChar ++ '.' :: r2 := by
                  conv_lhs => rw [← List.takeWhile_append_dropWhile isWordChar s.data]
                  rw [h1]
                calc s.data
                    = s.data.takeWhile isWordChar ++ '.' :: r2 := q1
                  _ = s.data.takeWhile isWordChar ++ '.' ::
                        (r2.takeWhile isWordChar ++
                          ((r2.dropWhile isWordChar).takeWhile isSpaceChar ++ '=' :: r5)) := by
                      rw [← q2]
                  _ = s.data.takeWhile isWordChar ++ '.' ::
                        (r2.takeWhile isWordChar ++
                          ((r2.dropWhile isWordChar).takeWhile isSpaceChar ++ '=' ::
                            (r5.takeWhile isSpaceChar ++
                              ((r5.dropWhile isSpaceChar).takeWhile isWordChar ++
                                '.' :: (r8.takeWhile isWordChar ++ r8.dropWhile isWordChar))))) := by
                      rw [← q5]
                  _ = s.data.takeWhile isWordChar ++ '.' ::
                        (r2.takeWhile isWordChar ++
                          (r2.dropWhile isWordChar).takeWhile isSpaceChar ++ '=' ::
                          (r5.takeWhile isSpaceChar ++
                            (r5.dropWhile isSpaceChar).takeWhile isWordChar ++
                            '.' :: (r8.takeWhile isWordChar ++ r8.dropWhile isWordChar))) := by
                      simp [List.append_assoc]

/-- Completeness half of the parser characterization: every input of the
matched shape parses to its four identifier runs. -/
theorem shape_parse_some {s t1 c1 t2 c2 : String} (hsh : OnShape s t1 c1 t2 c2) :
    _parse_on_clause s = some (t1, c1, t2, c2) := by
  obtain ⟨ws1, ws2, rest, ⟨ht1ne, ht1w⟩, ⟨hc1ne, hc1w⟩, ⟨ht2ne, ht2w⟩, ⟨hc2ne, hc2w⟩,
    hws1, hws2, hrest, heq⟩ := hsh
  have heq' : s.data = t1.data ++
      ('.' :: (c1.data ++ (ws1 ++ '=' :: (ws2 ++ (t2.data ++ '.' :: (c2.data ++ rest)))))) := by
    rw [heq]
    simp [List.append_assoc]
  have hM : ∀ c, (t2.data ++ '.' :: (c2.data ++ rest)).head? = some c →
      isSpaceChar c = false := by
    intro c hc
    cases ht2 : t2.data with
    | nil => exact absurd ht2 ht2ne
    | cons a as =>
      rw [ht2, List.cons_append, List.head?_cons, Option.some.injEq] at hc
      rw [← hc]
      exact isWordChar_not_space (ht2w a (by rw [ht2]; simp))
  have e5 : (ws2 ++ (t2.data ++ '.' :: (c2.data ++ rest))).dropWhile isSpaceChar =
      t2.data ++ '.' :: (c2.data ++ rest) :=
    (takeWhile_append_all ws2 hws2 hM).2
  have e6 : (t2.data ++ '.' :: (c2.data ++ rest)).takeWhile isWordChar = t2.data ∧
      (t2.data ++ '.' :: (c2.data ++ rest)).dropWhile isWordChar = '.' :: (c2.data ++ rest) :=
    takeWhile_append_all t2.data ht2w (by intro c hc; simp at hc; subst hc; decide)
  have e8 : (c2.data ++ rest).takeWhile isWordChar = c2.data :=
    (takeWhile_append_all c2.data hc2w hrest).1
  have hE : ∀ c, (ws1 ++ '=' :: (ws2 ++ (t2.data ++ '.' :: (c2.data ++ rest)))).head? =
      some c → isWordChar c = false := by
    intro c hc
    cases ws1 with
    | nil =>
      rw [List.nil_append, List.head?_cons, Option.some.injEq] at hc
      subst hc
      decide
    | cons w ws =>
      rw [List.cons_append, List.head?_cons, Option.some.injEq] at hc
      rw [← hc]
      exact isSpaceChar_not_word (hws1 w (by simp))
  have e2 : (c1.data ++ (ws1 ++ '=' :: (ws2 ++ (t2.data ++ '.' :: (c2.data ++ rest))))).takeWhile
        isWordChar = c1.data ∧
      (c1.data ++ (ws1 ++ '=' :: (ws2 ++ (t2.data ++ '.' :: (c2.data ++ rest))))).dropWhile
        isWordChar = ws1 ++ '=' :: (ws2 ++ (t2.data ++ '.' :: (c2.data ++ rest))) :=
    takeWhile_append_all c1.data hc1w hE
  have e3 : (ws1 ++ '=' :: (ws2 ++ (t2.data ++ '.' :: (c2.data ++ rest)))).dropWhile
        isSpaceChar = '=' :: (ws2 ++ (t2.data ++ '.' :: (c2.data ++ rest))) :=
    (takeWhile_append_all ws1 hws1 (by intro c hc; simp at hc; subst hc; decide)).2
  have e1 : s.data.takeWhile isWordChar = t1.data ∧
      s.data.dropWhile isWordChar =
        '.' :: (c1.data ++ (ws1 ++ '=' :: (ws2 ++ (t2.data ++ '.' :: (c2.data ++ rest))))) := by
    rw [heq']
    exact takeWhile_append_all t1.data ht1w (by intro c hc; simp at hc; subst hc; decide)
  simp only [_parse_on_clause]
  rw [e1.2]
  simp only [e1.1, e2.1, e2.2, e3, e5, e6.1, e6.2, e8]
  simp [asString_data, ht1ne, hc1ne, ht2ne, hc2ne]

/-! ## Claim C1 -/

/-- C1 (amended): `_parse_on_clause` succeeds exactly on strings whose
*prefix* matches `ident.ident = ident.ident` — four nonempty word-character
runs, a dot inside each side, horizontal whitespace around `=` — where any
trailing remainder not starting with a word character is accepted and
ignored (the source's `re.match` is not end-anchored); on success the four
returned identifiers are exactly the maximal word-character runs delimited
by the two dots and the `=`.  Inputs with no such prefix (missing dot,
non-equality operator, missing table qualification) yield NONE. -/
theorem c1_parse_on_clause_shape (s t1 c1 t2 c2 : String) :
    _parse_on_clause s = some (t1, c1, t2, c2) ↔ OnShape s t1 c1 t2 c2 :=
  ⟨parse_some_shape, shape_parse_some⟩

/-- C1 counterexample: contrary to the claim, a string with trailing garbage
after a valid `ident.ident = ident.ident` prefix is parsed successfully
(yielding the prefix's identifiers), not rejected with NONE. -/
theorem c1_counterexample :
    _parse_on_clause "users.id = profiles.user_id AND 1 = 1" =
      some ("users", "id", "profiles", "user_id") := by decide

theorem c1_witness :
    _parse_on_clause "users.id = profiles.user_id" =
      some ("users", "id", "profiles", "user_id") :=
  (c1_parse_on_clause_shape "users.id = profiles.user_id" "users" "id" "profiles"
    "user_id").mpr
    ⟨[' '], [' '], [], ⟨by decide, by decide⟩, ⟨by decide, by decide⟩,
      ⟨by decide, by decide⟩, ⟨by decide, by decide⟩,
      fun c hc => by simp at hc; subst hc; decide,
      fun c hc => by simp at hc; subst hc; decide,
      fun c hc => by simp at hc, by decide⟩

/-! ## Validator step lemmas -/

theorem dlookup_mem {α : Type} {m : List (String × α)} {k : String} {v : α}
    (h : dlookup m k = some v) : k ∈ m.map (·.1) := by
  unfold dlookup at h
  cases hf : m.find? (fun p => p.1 = k) with
  | none => rw [hf] at h; simp at h
  | some p =>
    have hp := List.find?_some hf
    have hm := List.mem_of_find?_eq_some hf
    simp only [decide_eq_true_eq] at hp
    exact List.mem_map.mpr ⟨p, hm, hp⟩

theorem get_column_type_mem {t : TableSchema} {c : String} {tag : String}
    (h : _get_column_type t c = some tag) : c ∈ t.cols.map (·.1) := by
  unfold _get_column_type at h
  cases hg : dcolget t c with
  | none => rw [hg] at h; simp at h
  | some ty => exact dlookup_mem hg

/-- Characterization of one successful-prefix iteration of the
`validate_joins` loop: with the declared table present, the ON clause
parsed, the forward-reference check satisfied and both predicate columns
present, the step reduces to the type comparison, and on success appends
exactly the parsed predicate's right table to the from-clause, the parsed
predicate's two tables to the table map, and the declared table to the
introduced set, with the LEFT/INNER flag computed from the uppercased kind
string. -/
theorem validateStep_char (schema : List TableSchema) (tables : List String)
    (st : LoopState) (tb onc : String) (k : Option String) (lt lc rt rc : String)
    (htb : tb ≠ "") (honc : onc ≠ "") (htbm : tb ∈ tables)
    (hp : _parse_on_clause onc = some (lt, lc, rt, rc))
    (hlf : lt ∈ st.added_tables ∨ lt = tb)
    (hrf : rt ∈ st.added_tables ∨ rt = tb)
    (hltm : lt ∈ tables) (hrtm : rt ∈ tables)
    (hlc : lc ∈ (_load_table schema lt).cols.map (·.1))
    (hrc : rc ∈ (_load_table schema rt).cols.map (·.1)) :
    validateStep schema tables st ⟨some tb, some onc, k⟩ =
      (if _get_column_type (_load_table schema lt) lc ≠
          _get_column_type (_load_table schema rt) rc then
        .error (.typeMismatch lt lc (_get_column_type (_load_table schema lt) lc)
          rt rc (_get_column_type (_load_table schema rt) rc))
      else
        .ok { added_tables := st.added_tables ++ [tb]
              table_map := dinsert (dinsert st.table_map lt (_load_table schema lt))
                rt (_load_table schema rt)
              from_clause := .join st.from_clause (_load_table schema rt) lt lc rt rc
                (strStartsWith (strUpper (k.getD "INNER")) "LEFT") }) := by
  have hcond : ¬(tb = "" ∨ onc = "") := by
    push_neg
    exact ⟨htb, honc⟩
  have href : _ensure_referenced_tables st.added_tables (lt, rt) tb = .ok () := by
    unfold _ensure_referenced_tables
    have h1 : ¬(lt ∉ st.added_tables ∧ lt ≠ tb) := by tauto
    have h2 : ¬(rt ∉ st.added_tables ∧ rt ≠ tb) := by tauto
    rw [if_neg h1, if_neg h2]
  have hlc1 : _ensure_columns_exist (_load_table schema lt) [lc] = .ok () := by
    simp [_ensure_columns_exist, hlc]
  have hrc1 : _ensure_columns_exist (_load_table schema rt) [rc] = .ok () := by
    simp [_ensure_columns_exist, hrc]
  simp only [validateStep, _ensure_table_and_load, _parse_on_or_raise, hp, hcond,
    htbm, hltm, hrtm, href, hlc1, hrc1, if_true, if_false, ite_true, ite_false,
    if_neg, if_pos]

/-! ## Claim C3 -/

/-- C3: for a root table and a single join `{table: tb, on: onc}` whose parsed
predicate's left table `lt` was never introduced (`lt` is neither the root
nor the table being introduced), validation fails with the forward-reference
error naming `lt`, regardless of any column existence or type facts (the
theorem assumes nothing about `lt`'s existence or any column of any table). -/
theorem c3_forward_reference (schema : List TableSchema)
    (ex : String → Except String (Option (List Row)))
    (root tb onc lt lc rt rc : String) (k : Option String)
    (hroot : root ∈ schema.map (·.name))
    (htbm : tb ∈ schema.map (·.name)) (htb : tb ≠ "") (honc : onc ≠ "")
    (hp : _parse_on_clause onc = some (lt, lc, rt, rc))
    (hlt1 : lt ≠ root) (hlt2 : lt ≠ tb) :
    validate_joins ⟨schema, ex⟩ root [⟨some tb, some onc, k⟩] =
      .error (.forwardReference lt) := by
  have hcond : ¬(tb = "" ∨ onc = "") := by
    push_neg
    exact ⟨htb, honc⟩
  have href : _ensure_referenced_tables [root] (lt, rt) tb =
      .error (.forwardReference lt) := by
    unfold _ensure_referenced_tables
    rw [if_pos ⟨by simp [hlt1], hlt2⟩]
  have hstep : validateStep schema (schema.map (·.name))
      ⟨[root], [(root, _load_table schema root)], .table (_load_table schema root)⟩
      ⟨some tb, some onc, k⟩ = .error (.forwardReference lt) := by
    simp only [validateStep, _ensure_table_and_load, _parse_on_or_raise, hp, hcond,
      htbm, href, if_true, if_false, ite_true, ite_false]
  simp only [validate_joins, validateJoinsStatic, validateLoop, hroot, if_true,
    ite_true, hstep]

theorem c3_witness :
    validate_joins demoDb "users"
        [⟨some "profiles", some "countries.id = profiles.user_id", some "left"⟩] =
      .error (.forwardReference "countries") :=
  c3_forward_reference [usersT, profilesT] okExec "users" "profiles"
    "countries.id = profiles.user_id" "countries" "id" "profiles" "user_id"
    (some "left") (by decide) (by decide) (by decide) (by decide) (by decide)
    (by decide) (by decide)

/-! ## Claim C4 -/

/-- C4: once the static checks succeed, `validate_joins` performs exactly one
smoke query — selecting the first column of the root table through the
assembled from-clause with `LIMIT 1` (its text is pinned by the first
conjunct, and the last conjunct shows the outcome depends on the execution
capability only through its answer on that one statement) — and any
execution-layer failure of that probe fails validation with the
join-validation error wrapping the underlying message, never silently
succeeding; an execution success returns the assembled tree and map. -/
theorem c4_smoke_query_gate (schema : List TableSchema)
    (ex1 ex2 : String → Except String (Option (List Row)))
    (root : String) (joins : List JoinSpec) (st : LoopState) (sql : String)
    (hstat : validateJoinsStatic schema root joins = .ok st)
    (hsql : smokeSql schema root st.from_clause = some sql) :
    (∃ c0 ty rest_, (_load_table schema root).cols = (c0, ty) :: rest_ ∧
      sql = "SELECT " ++ (_load_table schema root).name ++ "." ++ c0 ++ " FROM " ++
        fromClauseSQL st.from_clause ++ " LIMIT 1") ∧
    (∀ e, ex1 sql = .error e →
      validate_joins ⟨schema, ex1⟩ root joins =
        .error (.joinValidationFailed ("Join validation failed: " ++ e))) ∧
    (∀ r, ex1 sql = .ok r →
      validate_joins ⟨schema, ex1⟩ root joins = .ok (st.from_clause, st.table_map)) ∧
    (ex1 sql = ex2 sql →
      validate_joins ⟨schema, ex1⟩ root joins =
        validate_joins ⟨schema, ex2⟩ root joins) := by
  refine ⟨?_, ?_, ?_, ?_⟩
  · unfold smokeSql at hsql
    cases hc : (_load_table schema root).cols with
    | nil => rw [hc] at hsql; simp at hsql
    | cons p rest_ =>
      obtain ⟨c0, ty⟩ := p
      rw [hc] at hsql
      simp only [Option.some.injEq] at hsql
      exact ⟨c0, ty, rest_, rfl, hsql.symm⟩
  · intro e he
    simp only [validate_joins, hstat, hsql, he]
  · intro r hr
    simp only [validate_joins, hstat, hsql, hr]
  · intro hee
    simp only [validate_joins, hstat, hsql]
    rw [hee]

theorem c4_witness :
    validate_joins failDb "users" [] =
      .error (.joinValidationFailed "Join validation failed: no such table: users") :=
  (c4_smoke_query_gate [usersT, profilesT] failExec okExec "users" []
    ⟨["users"], [("users", usersT)], .table usersT⟩
    "SELECT users.id FROM users LIMIT 1" rfl rfl).2.1 "no such table: users" rfl

/-! ## Claim C5 -/

/-- C5 counterexample: the kind string `"LEFT OUTER"` is none of `"left"`,
`"Left"`, `"LEFT"` (and not absent), yet the join is built with the outer
flag set — a LEFT OUTER join, not INNER as the claim requires for "any other
string". -/
theorem c5_counterexample :
    validate_joins demoDb "users"
        [⟨some "profiles", some "users.id = profiles.user_id", some "LEFT OUTER"⟩] =
      .ok (.join (.table usersT) profilesT "users" "id" "profiles" "user_id" true,
        [("users", usersT), ("profiles", profilesT)]) ∧
    ("LEFT OUTER" ≠ "left" ∧ "LEFT OUTER" ≠ "Left" ∧ "LEFT OUTER" ≠ "LEFT") :=
  ⟨rfl, by decide⟩

/-- C5 (amended): a join is LEFT OUTER exactly when the uppercased kind
string *starts with* `"LEFT"` (an absent kind defaults to `"INNER"`): in
particular `"left"`, `"Left"`, `"LEFT"` give LEFT OUTER and `"INNER"`, `""`
give INNER, but so does any other string whose uppercase starts with
`"LEFT"` (e.g. `"LEFT OUTER"`). -/
theorem c5_join_kind (k : Option String) :
    validate_joins demoDb "users"
        [⟨some "profiles", some "users.id = profiles.user_id", k⟩] =
      .ok (.join (.table usersT) profilesT "users" "id" "profiles" "user_id"
          (strStartsWith (strUpper (k.getD "INNER")) "LEFT"),
        [("users", usersT), ("profiles", profilesT)]) ∧
    strStartsWith (strUpper "left") "LEFT" = true ∧
    strStartsWith (strUpper "Left") "LEFT" = true ∧
    strStartsWith (strUpper "LEFT") "LEFT" = true ∧
    strStartsWith (strUpper "INNER") "LEFT" = false ∧
    strStartsWith (strUpper "") "LEFT" = false := by
  exact ⟨rfl, by decide, by decide, by decide, by decide, by decide⟩

theorem c5_witness :
    validate_joins demoDb "users"
        [⟨some "profiles", some "users.id = profiles.user_id", some "left"⟩] =
      .ok (.join (.table usersT) profilesT "users" "id" "profiles" "user_id"
          (strStartsWith (strUpper ((some "left").getD "INNER")) "LEFT"),
        [("users", usersT), ("profiles", profilesT)]) :=
  (c5_join_kind (some "left")).1

/-! ## Claim C6 -/

/-- C6: whenever the two columns of a join's parsed equality predicate
resolve to differing semantic type tags, validation fails with the
type-mismatch error carrying both column references and both resolved tags,
for every join kind `k` (LEFT, INNER or anything else); and unrecognized
native types are tagged by their raw type name, so they compare by it. -/
theorem c6_type_mismatch :
    (∀ (schema : List TableSchema) (ex : String → Except String (Option (List Row)))
        (root tb onc lt lc rt rc : String) (k : Option String) (ltag rtag : String),
      root ∈ schema.map (·.name) → tb ∈ schema.map (·.name) → tb ≠ "" → onc ≠ "" →
      _parse_on_clause onc = some (lt, lc, rt, rc) →
      (lt = root ∨ lt = tb) → (rt = root ∨ rt = tb) →
      lt ∈ schema.map (·.name) → rt ∈ schema.map (·.name) →
      _get_column_type (_load_table schema lt) lc = some ltag →
      _get_column_type (_load_table schema rt) rc = some rtag →
      ltag ≠ rtag →
      validate_joins ⟨schema, ex⟩ root [⟨some tb, some onc, k⟩] =
        .error (.typeMismatch lt lc (some ltag) rt rc (some rtag))) ∧
    (∀ n, typeTag (.other n) = n) := by
  constructor
  · intro schema ex root tb onc lt lc rt rc k ltag rtag hroot htbm htb honc hp
      hlf hrf hltm hrtm hlt hrt hne
    have hstep := validateStep_char schema (schema.map (·.name))
      ⟨[root], [(root, _load_table schema root)], .table (_load_table schema root)⟩
      tb onc k lt lc rt rc htb honc htbm hp
      (hlf.imp (by intro h; simp [h]) id) (hrf.imp (by intro h; simp [h]) id)
      hltm hrtm (get_column_type_mem hlt) (get_column_type_mem hrt)
    rw [if_pos (by rw [hlt, hrt]; exact fun hh => hne (Option.some.inj hh))] at hstep
    rw [hlt, hrt] at hstep
    simp only [validate_joins, validateJoinsStatic, validateLoop, hroot, if_true,
      ite_true, hstep]
  · intro n
    rfl

theorem c6_witness :
    validate_joins mismatchDb "users"
        [⟨some "profiles", some "users.id = profiles.user_id", some "left"⟩] =
      .error (.typeMismatch "users" "id" (some "int") "profiles" "user_id"
        (some "str")) :=
  c6_type_mismatch.1 [usersT, profilesStrT] okExec "users" "profiles"
    "users.id = profiles.user_id" "users" "id" "profiles" "user_id" (some "left")
    "int" "str" (by decide) (by decide) (by decide) (by decide) (by decide)
    (Or.inl rfl) (Or.inr rfl) (by decide) (by decide) rfl rfl (by decide)

/-! ## Claim C10 -/

/-- C10: in every successful iteration of the `validate_joins` loop, the
table joined into the accumulating from-clause is the *right-hand table of
the parsed ON clause* and the table map gains exactly the predicate's left
and right tables, while the declared `table` of the join spec is only added
to the introduced-table set; consequently (second conjunct, concrete run) a
declared table `B` appearing on neither side of its own ON clause is
neither joined into the from-clause nor present in the table map, although
validation succeeds. -/
theorem c10_right_table_merge :
    (∀ (schema : List TableSchema) (tables : List String) (st : LoopState)
        (tb onc : String) (k : Option String) (lt lc rt rc : String)
        (st' : LoopState),
      tb ≠ "" → onc ≠ "" → tb ∈ tables →
      _parse_on_clause onc = some (lt, lc, rt, rc) →
      (lt ∈ st.added_tables ∨ lt = tb) → (rt ∈ st.added_tables ∨ rt = tb) →
      lt ∈ tables → rt ∈ tables →
      lc ∈ (_load_table schema lt).cols.map (·.1) →
      rc ∈ (_load_table schema rt).cols.map (·.1) →
      validateStep schema tables st ⟨some tb, some onc, k⟩ = .ok st' →
      st'.from_clause = .join st.from_clause (_load_table schema rt) lt lc rt rc
          (strStartsWith (strUpper (k.getD "INNER")) "LEFT") ∧
      st'.table_map = dinsert (dinsert st.table_map lt (_load_table schema lt)) rt
          (_load_table schema rt) ∧
      st'.added_tables = st.added_tables ++ [tb]) ∧
    (validate_joins dbAB "A" [⟨some "B", some "A.x = A.y", none⟩] =
        .ok (.join (.table tableAT) tableAT "A" "x" "A" "y" false, [("A", tableAT)]) ∧
      fromTables (.join (.table tableAT) tableAT "A" "x" "A" "y" false) = ["A", "A"] ∧
      "B" ∉ fromTables (.join (.table tableAT) tableAT "A" "x" "A" "y" false) ∧
      "B" ∉ [("A", tableAT)].map (·.1)) := by
  constructor
  · intro schema tables st tb onc k lt lc rt rc st' htb honc htbm hp hlf hrf
      hltm hrtm hlc hrc hstep
    rw [validateStep_char schema tables st tb onc k lt lc rt rc htb honc htbm hp
      hlf hrf hltm hrtm hlc hrc] at hstep
    by_cases hty : _get_column_type (_load_table schema lt) lc ≠
        _get_column_type (_load_table schema rt) rc
    · rw [if_pos hty] at hstep
      exact absurd hstep (by simp)
    · rw [if_neg hty] at hstep
      simp only [Except.ok.injEq] at hstep
      subst hstep
      exact ⟨rfl, rfl, rfl⟩
  · exact ⟨rfl, rfl, by decide, by decide⟩

theorem c10_witness :
    FromClause.join (.table usersT) profilesT "users" "id" "profiles" "user_id" true =
      .join (.table usersT) (_load_table [usersT, profilesT] "profiles") "users" "id"
        "profiles" "user_id" (strStartsWith (strUpper ((some "LEFT").getD "INNER")) "LEFT") ∧
    [("users", usersT), ("profiles", profilesT)] =
      dinsert (dinsert [("users", usersT)] "users" (_load_table [usersT, profilesT] "users"))
        "profiles" (_load_table [usersT, profilesT] "profiles") ∧
    ["users", "profiles"] = ["users"] ++ ["profiles"] :=
  c10_right_table_merge.1 [usersT, profilesT] ["users", "profiles"]
    ⟨["users"], [("users", usersT)], .table usersT⟩ "profiles"
    "users.id = profiles.user_id" (some "LEFT") "users" "id" "profiles" "user_id"
    ⟨["users", "profiles"], [("users", usersT), ("profiles", profilesT)],
      .join (.table usersT) profilesT "users" "id" "profiles" "user_id" true⟩
    (by decide) (by decide) (by decide) (by decide) (by decide) (by decide)
    (by decide) (by decide) (by decide) (by decide) rfl

/-! ## Claim C7 -/

theorem labelFragment_ok {table_map : List (String × TableSchema)} {tc a f : String}
    (h : labelFragment table_map tc a = .ok f) : f = fragFormula (tc, a) := by
  unfold labelFragment splitRef at h
  unfold fragFormula
  cases hs : splitOnDot tc.data with
  | nil => rw [hs] at h; simp at h
  | cons t rest =>
    cases rest with
    | nil => rw [hs] at h; simp at h
    | cons c rest2 =>
      rw [hs] at h
      simp only [] at h
      cases hl : dlookup table_map t.asString with
      | none => rw [hl] at h; simp at h
      | some tbl =>
        rw [hl] at h
        simp only [] at h
        cases hg : dcolget tbl c.asString with
        | none => rw [hg] at h; simp at h
        | some ty =>
          rw [hg] at h
          simp only [Except.ok.injEq] at h
          rw [← h]

theorem buildColumns_ok {table_map : List (String × TableSchema)} :
    ∀ (sel : List (String × String)) (cols : List String),
    buildColumns table_map sel = .ok cols → cols = sel.map fragFormula := by
  intro sel
  induction sel with
  | nil =>
    intro cols h
    simp only [buildColumns, Except.ok.injEq] at h
    rw [← h, List.map_nil]
  | cons p rest ih =>
    intro cols h
    simp only [buildColumns] at h
    cases hf : labelFragment table_map p.1 p.2 with
    | error e => rw [hf] at h; simp at h
    | ok f =>
      rw [hf] at h
      cases hr : buildColumns table_map rest with
      | error e => rw [hr] at h; simp at h
      | ok fs =>
        rw [hr] at h
        simp only [Except.ok.injEq] at h
        rw [← h, List.map_cons, labelFragment_ok hf, ih fs hr]

/-- C7: every successfully compiled query is a single `SELECT col AS alias,
... FROM ...` statement whose output column list is exactly the column
selection in insertion order — each entry rendered from its own key and
alias alone — so the order is independent of the join list, which
contributes only the FROM clause. -/
theorem c7_column_order (db : Database) (root : String) (joins : List JoinSpec)
    (sel : List (String × String)) (q : String)
    (h : generate_join_query db root joins sel = .ok q) :
    ∃ fc tmap, validate_joins db root joins = .ok (fc, tmap) ∧
      q = "SELECT " ++ joinSep ", " (sel.map fragFormula) ++ " FROM " ++
        fromClauseSQL fc := by
  unfold generate_join_query at h
  cases hv : validate_joins db root joins with
  | error e => rw [hv] at h; simp at h
  | ok pr =>
    obtain ⟨fc, tmap⟩ := pr
    rw [hv] at h
    simp only [] at h
    cases hb : buildColumns tmap sel with
    | error e => rw [hb] at h; simp at h
    | ok cols =>
      rw [hb] at h
      simp only [Except.ok.injEq] at h
      exact ⟨fc, tmap, rfl, by rw [← h, buildColumns_ok sel cols hb]⟩

theorem c7_witness :
    ∃ fc tmap,
      validate_joins demoDb "users"
          [⟨some "profiles", some "users.id = profiles.user_id", some "LEFT"⟩] =
        .ok (fc, tmap) ∧
      "SELECT users.id AS id, profiles.phone AS telephone FROM users LEFT OUTER JOIN profiles ON users.id = profiles.user_id" =
        "SELECT " ++
          joinSep ", " ([("users.id", "id"), ("profiles.phone", "telephone")].map
            fragFormula) ++
          " FROM " ++ fromClauseSQL fc :=
  c7_column_order demoDb "users"
    [⟨some "profiles", some "users.id = profiles.user_id", some "LEFT"⟩]
    [("users.id", "id"), ("profiles.phone", "telephone")]
    "SELECT users.id AS id, profiles.phone AS telephone FROM users LEFT OUTER JOIN profiles ON users.id = profiles.user_id"
    rfl

/-! ## Claim C2 -/

/-- C2 (the code evaluated at the failing input of the repository's own
migration tests): the pipeline treats every registered transform as a
side-effecting writer `insert_fn(new_db, row_dict)` and never inserts a
transform's return value, and there is no second dispatch path.  With the
test's pure row mapper registered — whose database effect is empty, because
it only returns a mapping — processing the single source row performs zero
inserts, where the test asserts one transformed row inserted into
`comptes`; without a transform the same row is inserted verbatim. -/
theorem c2_transform_dispatch_bug :
    _process_rows "comptes" [aliceRow] (some transform_user_data_writes) = [] ∧
    _process_rows "comptes" [aliceRow] none = [("comptes", aliceRow)] :=
  ⟨rfl, rfl⟩

/-! ## Claim C8 -/

theorem migrateLoop_append (old new : Database)
    (reg : List (String × TransformFn)) :
    ∀ (pre l : List MapEntry) (t t' : MigTrace) (s : String),
    migrateLoop old new reg pre t = .ok (s, t') →
    migrateLoop old new reg (pre ++ l) t = migrateLoop old new reg l t' := by
  intro pre
  induction pre with
  | nil =>
    intro l t t' s h
    simp only [migrateLoop, Except.ok.injEq, Prod.mk.injEq] at h
    rw [List.nil_append, ← h.2]
  | cons e rest ih =>
    intro l t t' s h
    rw [List.cons_append]
    simp only [migrateLoop] at h ⊢
    cases hfn : _lookup_insert_fn reg e.insert_function with
    | error er => rw [hfn] at h; simp at h
    | ok fn =>
      rw [hfn] at h
      simp only [] at h ⊢
      cases hq : generate_join_query old e.root_table e.joins e.columns with
      | error er => rw [hq] at h; simp at h
      | ok q =>
        rw [hq] at h
        simp only [] at h ⊢
        cases he : old.exec q with
        | error msg => rw [he] at h; simp at h
        | ok rowsOpt =>
          rw [he] at h
          simp only [] at h ⊢
          exact ih l _ t' s h

/-- C8: a plan entry whose (nonempty) transform name is absent from the
registry aborts the run with the unknown-transform error carrying the
requested name and the full available-name list, raised before any row of
that entry or of any later entry is extracted or processed: the effect trace
(extraction queries and inserts) of the aborted run is exactly the trace of
the completed earlier entries. -/
theorem c8_unknown_transform (old new : Database)
    (reg : List (String × TransformFn)) (pre rest : List MapEntry)
    (entry : MapEntry) (t0 : MigTrace) (s : String)
    (hname : entry.insert_function ≠ "")
    (hmiss : dlookup reg entry.insert_function = none)
    (hpre : migrateLoop old new reg pre ⟨[], []⟩ = .ok (s, t0)) :
    migrate old new (pre ++ entry :: rest) (some reg) =
      .error (.unknownTransform entry.insert_function (reg.map (·.1)), t0) := by
  have hlk : _lookup_insert_fn reg entry.insert_function =
      .error (.unknownTransform entry.insert_function (reg.map (·.1))) := by
    unfold _lookup_insert_fn
    rw [if_neg hname, hmiss]
  simp only [migrate, Option.getD_some]
  rw [migrateLoop_append old new reg pre (entry :: rest) ⟨[], []⟩ t0 s hpre]
  simp only [migrateLoop, hlk]

theorem c8_witness :
    migrate demoDb demoDb [missingEntry] (some demoRegistry) =
      .error (.unknownTransform "missing" ["existing_function"], ⟨[], []⟩) :=
  c8_unknown_transform demoDb demoDb demoRegistry [] [] missingEntry ⟨[], []⟩
    "Migration completed successfully" (by decide) rfl rfl

/-! ## Claim C9 -/

/-- C9 counterexample: a failing entry with root `"users"` and target
`"comptes"` aborts the run with the raw unknown-transform error — the
propagated error value carries only the transform name and the registry's
names, and in particular neither the entry's root table nor its target
table, contradicting the claim that the pipeline attaches the entry's
identity to the error before re-propagating. -/
theorem c9_counterexample :
    migrate demoDb demoDb [missingEntry, plainEntry] (some demoRegistry) =
      .error (.unknownTransform "missing" ["existing_function"], ⟨[], []⟩) ∧
    "users" ∉ errStrings (.unknownTransform "missing" ["existing_function"]) ∧
    "comptes" ∉ errStrings (.unknownTransform "missing" ["existing_function"]) :=
  ⟨rfl, by decide, by decide⟩

/-- C9 (amended): when processing a plan entry fails, the pipeline aborts all
remaining entries with no continue-on-error — the run's outcome is the
failing entry's error and effect trace *unchanged*, whatever entries follow;
no root-table/target-table identity is attached to the propagated error. -/
theorem c9_abort_propagate (old new : Database)
    (reg : List (String × TransformFn)) (e : MapEntry) (t : MigTrace)
    (p : Err × MigTrace)
    (h : migrateLoop old new reg [e] t = .error p) :
    ∀ rest, migrateLoop old new reg (e :: rest) t = .error p := by
  intro rest
  simp only [migrateLoop] at h ⊢
  cases hfn : _lookup_insert_fn reg e.insert_function with
  | error er =>
    rw [hfn] at h
    simp only [] at h ⊢
    exact h
  | ok fn =>
    rw [hfn] at h
    simp only [] at h ⊢
    cases hq : generate_join_query old e.root_table e.joins e.columns with
    | error er =>
      rw [hq] at h
      simp only [] at h ⊢
      exact h
    | ok q =>
      rw [hq] at h
      simp only [] at h ⊢
      cases he : old.exec q with
      | error msg =>
        rw [he] at h
        simp only [] at h ⊢
        exact h
      | ok rowsOpt =>
        rw [he] at h
        simp only [] at h
        exact absurd h (by simp)

theorem c9_witness :
    migrateLoop demoDb demoDb demoRegistry [missingEntry, plainEntry] ⟨[], []⟩ =
      .error (.unknownTransform "missing" ["existing_function"], ⟨[], []⟩) :=
  c9_abort_propagate demoDb demoDb demoRegistry missingEntry ⟨[], []⟩
    (.unknownTransform "missing" ["existing_function"], ⟨[], []⟩) rfl [plainEntry]
